import Mathlib

/-!
Shallow embedding of the Compose discovery engine of docker-tea
(package docker: ListComposeProjects, findComposeProjectPath,
parseComposeOutputManually, ListComposeServices, ListComposeContainers
and its helpers; package views: FetchComposeContainers), with proofs of
properties of these functions.

Modelling conventions:
* Go strings are Lean Strings; all inputs under study are ASCII, and the
  Go strings helpers are reproduced on String.data below.
* Machine-facing effects (subprocess execution, filesystem stat/read, the
  Docker daemon, the JSON/YAML decoding libraries) are external
  collaborators; each embedded function takes an environment record that
  holds their responses for the call under study.  A decoded JSON or YAML
  document is a GoVal tree, the shape encoding/json and yaml.v3 produce
  for an interface\x7b\x7d target; decoding into concrete Go types is
  embedded as total functions over GoVal (library decodes are modelled
  all-or-nothing, and the case-insensitive JSON field fallback is elided:
  every input studied uses the exact tag spelling).
* A Go function returning (T, error) becomes T × Option String; the
  dynamic suffixes that fmt.Errorf interpolates are elided, keeping each
  static message text.  A Go nil slice is the empty list.
* Record fields no studied code path populates (Created timestamps,
  runtime Ports, the service stats readings) are elided.
-/

namespace DockerTea

/-- ASCII lowering; the effect of Go strings.ToLower on the inputs studied here. -/
def goLowerChar (c : Char) : Char :=
  if 'A' ≤ c ∧ c ≤ 'Z' then Char.ofNat (c.toNat + 32) else c

/-- Go strings.ToLower (ASCII). -/
def goToLower (s : String) : String :=
  String.mk (s.data.map goLowerChar)

/-- Go strings.ReplaceAll where old and new are single-character strings. -/
def goReplaceAllChar (s : String) (a b : Char) : String :=
  String.mk (s.data.map (fun c => if c = a then b else c))

/-- Substring occurrence on character lists. -/
def goContainsList : List Char → List Char → Bool
  | [], needle => needle.isEmpty
  | c :: t, needle => needle.isPrefixOf (c :: t) || goContainsList t needle

/-- Go strings.Contains. -/
def goContains (s sub : String) : Bool :=
  goContainsList s.data sub.data

/-- Go strings.HasPrefix. -/
def goStartsWith (s p : String) : Bool :=
  p.data.isPrefixOf s.data

/-- ASCII whitespace, as unicode.IsSpace classifies it on ASCII input. -/
def goIsSpace (c : Char) : Bool :=
  c = ' ' || c = '\t' || c = '\n' || c = '\x0b' || c = '\x0c' || c = '\r'

/-- Go strings.TrimSpace (ASCII). -/
def goTrimSpace (s : String) : String :=
  String.mk (((s.data.dropWhile goIsSpace).reverse.dropWhile goIsSpace).reverse)

/-- Go strings.Trim with an explicit cutset. -/
def goTrimCutset (s cutset : String) : String :=
  String.mk (((s.data.dropWhile (fun c => cutset.data.contains c)).reverse.dropWhile
      (fun c => cutset.data.contains c)).reverse)

/-- Token accumulation behind goFields. -/
def goFieldsAux : List Char → List Char → List String
  | acc, [] => if acc.isEmpty then [] else [String.mk acc.reverse]
  | acc, c :: t =>
    if goIsSpace c then
      (if acc.isEmpty then [] else [String.mk acc.reverse]) ++ goFieldsAux [] t
    else goFieldsAux (c :: acc) t

/-- Go strings.Fields: the nonempty tokens between runs of whitespace. -/
def goFields (s : String) : List String :=
  goFieldsAux [] s.data

/-- Fuelled scanner behind goSplit; the fuel always covers the input. -/
def goSplitAux (sep : List Char) : Nat → List Char → List Char → List (List Char)
  | 0, acc, _ => [acc.reverse]
  | n + 1, acc, rest =>
    if sep.isPrefixOf rest then
      acc.reverse :: goSplitAux sep n [] (rest.drop sep.length)
    else
      match rest with
      | [] => [acc.reverse]
      | c :: t => goSplitAux sep n (c :: acc) t

/-- Go strings.Split with a nonempty separator (every call site below
passes a nonempty literal). -/
def goSplit (s sep : String) : List String :=
  if sep.data.isEmpty then [s]
  else (goSplitAux sep.data (s.data.length + 1) [] s.data).map String.mk

/-- Go strings.Join. -/
def goJoin (sep : String) : List String → String
  | [] => ""
  | [x] => x
  | x :: xs => x ++ sep ++ goJoin sep xs

/-- Go strings.EqualFold on the ASCII inputs studied here. -/
def goEqualFold (a b : String) : Bool :=
  goToLower a == goToLower b

/-- The identifier truncation idiom: if len(id) > 12 then id[:12]. -/
def goTake12 (s : String) : String :=
  if 12 < s.length then String.mk (s.data.take 12) else s

/-- A decoded JSON/YAML document, as the Go libraries produce it for a
generic interface target. -/
inductive GoVal where
  | str (s : String)
  | num (n : Int)
  | boolVal (b : Bool)
  | null
  | arr (xs : List GoVal)
  | obj (fields : List (String × GoVal))

/-- Whether a value is an object, i.e. whether a Go type assertion to
map[string]interface\x7b\x7d on the held value succeeds. -/
def GoVal.isObj : GoVal → Bool
  | GoVal.obj _ => true
  | _ => false

/-- json.Unmarshal into map[string]interface\x7b\x7d: an object gives its
fields, null leaves the nil map, anything else is a decode error. -/
def asObj : GoVal → Option (List (String × GoVal))
  | GoVal.obj fs => some fs
  | GoVal.null => some []
  | _ => none

/-- json.Unmarshal into a slice of maps ([]map[string]interface\x7b\x7d). -/
def decodeObjList : GoVal → Option (List (List (String × GoVal)))
  | GoVal.arr xs => xs.mapM asObj
  | GoVal.null => some []
  | _ => none

/-- Decoding one JSON field into a Go string field: absent or null keeps
the zero value, a string is taken as is, any other shape is an error. -/
def decodeGoString : Option GoVal → Option String
  | none => some ""
  | some (GoVal.str s) => some s
  | some GoVal.null => some ""
  | some _ => none

/-- Decoding one JSON field into a Go []string field. -/
def decodeGoStringList : Option GoVal → Option (List String)
  | none => some []
  | some GoVal.null => some []
  | some (GoVal.arr xs) =>
      xs.mapM (fun x =>
        match x with
        | GoVal.str s => some s
        | GoVal.null => some ""
        | _ => none)
  | some _ => none

/-- The map[string]interface\x7b\x7d field access m[k].(string) with a
zero-value default, as the compose ps interpreter uses it. -/
def goStrField (m : List (String × GoVal)) (k : String) : String :=
  match m.lookup k with
  | some (GoVal.str s) => s
  | _ => ""

/-- ComposeInfo: one compose project record (JSON tags name, path,
services, status, configFiles). -/
structure ComposeInfo where
  name : String
  path : String
  services : List String
  status : String
  configFiles : String
deriving DecidableEq

/-- ComposeServiceInfo, restricted to the fields the studied functions
populate (name, image, ports). -/
structure ComposeServiceInfo where
  name : String
  image : String
  ports : List String
deriving DecidableEq

/-- ContainerInfo, restricted to the fields the studied functions
populate (the Created timestamp and runtime Ports are elided). -/
structure ContainerInfo where
  id : String
  name : String
  image : String
  command : String
  status : String
  state : String
deriving DecidableEq

/-- A container as the Docker daemon reports it to ContainerList: raw
identifier, slash-prefixed names, and its label map. -/
structure APIContainer where
  id : String
  names : List String
  image : String
  command : String
  status : String
  state : String
  labels : List (String × String)

/-- json.Unmarshal of one object into the ComposeInfo struct. -/
def decodeComposeInfo : GoVal → Option ComposeInfo
  | GoVal.obj fs =>
    match decodeGoString (fs.lookup "name"), decodeGoString (fs.lookup "path"),
        decodeGoStringList (fs.lookup "services"), decodeGoString (fs.lookup "status"),
        decodeGoString (fs.lookup "configFiles") with
    | some n, some p, some sv, some st, some cf => some ⟨n, p, sv, st, cf⟩
    | _, _, _, _, _ => none
  | _ => none

/-- json.Unmarshal into []ComposeInfo. -/
def decodeComposeInfoList : GoVal → Option (List ComposeInfo)
  | GoVal.arr xs => xs.mapM decodeComposeInfo
  | GoVal.null => some []
  | _ => none

/-- The observable state of the caller-supplied context.Context. -/
inductive Ctx where
  | live
  | expired

/-- Raw subprocess output: the bytes together with their parse by the
JSON library (none when the bytes are not valid JSON). -/
structure Raw where
  text : String
  js : Option GoVal

/-- Outcome of running a subprocess and collecting its output:
ok = ran with exit code zero, exitErr = ran but exited non-zero
(an exec.ExitError), startErr = the process could not be started. -/
inductive ExecRes where
  | ok (out : Raw)
  | exitErr (out : Raw)
  | startErr

/-- Environment of a ListComposeProjects call: outputs of the external
tool invocations it (and its helper findComposeProjectPath) may issue,
plus the result of the subprocess/filesystem scan
tryExtractProjectsViaConfig, whose candidates carry status unknown. -/
structure ProjEnv where
  composeLs : ExecRes
  configCmd : String → Option Raw
  lsA : Option Raw
  configProjects : List ComposeInfo

/-- findComposeProjectPath: try the per-project config subcommand for a
working_dir field, then scan the verbose listing for a line mentioning
the project and take its third column, else fall back to the current
directory. -/
def findComposeProjectPath (env : ProjEnv) (projectName : String) : String :=
  let fromConfig : Option String :=
    match env.configCmd projectName with
    | some out =>
      match out.js with
      | some v =>
        match asObj v with
        | some config =>
          match config.lookup "working_dir" with
          | some (GoVal.str wd) => if wd ≠ "" then some wd else none
          | _ => none
        | none => none
      | none => none
    | none => none
  match fromConfig with
  | some wd => wd
  | none =>
    match env.lsA with
    | some out =>
      match (goSplit out.text "\n").find?
          (fun line => goContains line projectName && decide (3 ≤ (goFields line).length)) with
      | some line => (goFields line).getD 2 "."
      | none => "."
    | none => "."

/-- One line of parseComposeOutputManually: skip a header or blank line,
try the whitespace-tokenized table format, then the JSON-like format. -/
def manualLine (i : Nat) (line : String) : List ComposeInfo :=
  if i == 0 && (goContains line "NAME" || goContains line "name") then []
  else if goTrimSpace line = "" then []
  else
    let tableHit : Option ComposeInfo :=
      if goContains line "\"name\":" then none
      else
        let parts := goFields line
        if 2 ≤ parts.length then
          some ⟨parts.getD 0 "", parts.getD 2 ".", [], parts.getD 1 "unknown", ""⟩
        else none
    match tableHit with
    | some p => [p]
    | none =>
      if goContains line "name" && goContains line "path" then
        let nameParts := goSplit line "\"name\":"
        if nameParts.length < 2 then []
        else
          let nameStr := goTrimCutset ((goSplit (nameParts.getD 1 "") ",").getD 0 "") " \t\","
          let pathParts := goSplit line "\"path\":"
          if pathParts.length < 2 then []
          else
            let pathStr := goTrimCutset ((goSplit (pathParts.getD 1 "") ",").getD 0 "") " \t\","
            let statusStr :=
              if goContains line "\"status\":" then
                let statusParts := goSplit line "\"status\":"
                if 2 ≤ statusParts.length then
                  goTrimCutset ((goSplit (statusParts.getD 1 "") ",").getD 0 "") " \t\","
                else "unknown"
              else "unknown"
            if nameStr ≠ "" then [⟨nameStr, pathStr, [], statusStr, ""⟩] else []
      else []

/-- The indexed line loop of parseComposeOutputManually. -/
def manualLines : Nat → List String → List ComposeInfo
  | _, [] => []
  | i, line :: rest => manualLine i line ++ manualLines (i + 1) rest

/-- parseComposeOutputManually: heuristic text interpretation of the
listing output when both JSON decodes failed. -/
def parseComposeOutputManually (output : String) : List ComposeInfo :=
  manualLines 0 (goSplit output "\n")

/-- The deduplication key name + ":" + path. -/
def dedupKey (p : ComposeInfo) : String :=
  p.name ++ ":" ++ p.path

/-- Membership in the seen-key set (Go map[string]bool lookup). -/
def keySeen : List String → String → Bool
  | [], _ => false
  | s :: rest, k => if s = k then true else keySeen rest k

/-- Path back-fill applied to a project kept by deduplication: an empty
path is replaced by the findComposeProjectPath lookup. -/
def fillPath (env : ProjEnv) (p : ComposeInfo) : ComposeInfo :=
  if p.path = "" then ⟨p.name, findComposeProjectPath env p.name, p.services, p.status, p.configFiles⟩
  else p

/-- The dedup loop of ListComposeProjects: keep the first record per
name + ":" + path key, filling an empty path on the kept record. -/
def dedupProjects (env : ProjEnv) : List String → List ComposeInfo → List ComposeInfo
  | _, [] => []
  | seen, p :: rest =>
    if keySeen seen (dedupKey p) then dedupProjects env seen rest
    else fillPath env p :: dedupProjects env (dedupKey p :: seen) rest

/-- The merge loop of ListComposeProjects: append each config-scan
candidate whose name is not already present. -/
def mergeConfigProjects (projects : List ComposeInfo) (configProjects : List ComposeInfo) :
    List ComposeInfo :=
  configProjects.foldl
    (fun acc cp => if acc.any (fun p => p.name == cp.name) then acc else acc ++ [cp]) projects

/-- ListComposeProjects: run the listing subcommand (an execution failure
is returned as an error), decode its output as a JSON array, then as a
single JSON object, then by manual text parsing; merge candidates from
the config scan; deduplicate and back-fill missing paths.  The ctx
argument mirrors the Go signature; the body never consults it. -/
def listComposeProjects (ctx : Ctx) (env : ProjEnv) : List ComposeInfo × Option String :=
  match env.composeLs with
  | ExecRes.exitErr _ => ([], some "failed to list Docker Compose projects")
  | ExecRes.startErr => ([], some "failed to execute Docker Compose command")
  | ExecRes.ok out =>
    let fromArray : Option (List ComposeInfo) :=
      match out.js with
      | some v => decodeComposeInfoList v
      | none => none
    let projects : List ComposeInfo :=
      match fromArray with
      | some ps => ps
      | none =>
        let fromSingle : Option ComposeInfo :=
          match out.js with
          | some v => decodeComposeInfo v
          | none => none
        match fromSingle with
        | some sp =>
          if sp.name ≠ "" then
            if sp.path = "" then
              [⟨sp.name, findComposeProjectPath env sp.name, sp.services, sp.status, sp.configFiles⟩]
            else [sp]
          else parseComposeOutputManually out.text
        | none => parseComposeOutputManually out.text
    (dedupProjects env [] (mergeConfigProjects projects env.configProjects), none)

/-- Result of one os.Stat call: the error class or the IsDir bit. -/
inductive StatRes where
  | notExist
  | statErr
  | file
  | dir
deriving DecidableEq

/-- Whether os.Stat succeeded. -/
def statOk : StatRes → Bool
  | StatRes.file => true
  | StatRes.dir => true
  | _ => false

/-- Environment of a ListComposeServices call: the filesystem's stat and
read answers, the yaml.v3 parse of file bytes into a top-level mapping
(none covers both a parse error and a non-mapping document), and the
output of the config --services subprocess (none when it failed). -/
structure SvcEnv where
  stat : String → StatRes
  readFile : String → Option String
  yaml : String → Option (List (String × GoVal))
  cliServices : Option String

/-- The fixed candidate declaration filenames probed inside a project
directory (filepath.Join on the Unix separator). -/
def composeCandidates (projectPath : String) : List String :=
  [projectPath ++ "/docker-compose.yml", projectPath ++ "/docker-compose.yaml",
   projectPath ++ "/compose.yml", projectPath ++ "/compose.yaml"]

/-- The image attribute of one service mapping. -/
def svcImage (m : List (String × GoVal)) : String :=
  match m.lookup "image" with
  | some (GoVal.str s) => s
  | _ => ""

/-- The ports attribute of one service mapping: the string entries of the
ports list, in order; non-string entries are skipped. -/
def svcPorts (m : List (String × GoVal)) : List String :=
  match m.lookup "ports" with
  | some (GoVal.arr xs) =>
    xs.filterMap (fun x =>
      match x with
      | GoVal.str s => some s
      | _ => none)
  | _ => []

/-- The service loop of ListComposeServices: one record per entry of the
services mapping whose value is itself a mapping; other entries are
skipped. -/
def svcRecords : List (String × GoVal) → List ComposeServiceInfo
  | [] => []
  | (n, GoVal.obj m) :: rest => ⟨n, svcImage m, svcPorts m⟩ :: svcRecords rest
  | _ :: rest => svcRecords rest

/-- The fallback loop over the config --services output lines: each
nonempty trimmed line becomes a name-only service record. -/
def cliServiceRecords : List String → List ComposeServiceInfo
  | [] => []
  | n :: rest =>
    let nm := goTrimSpace n
    if nm = "" then cliServiceRecords rest
    else ⟨nm, "", []⟩ :: cliServiceRecords rest

/-- The hard-coded record appended when every strategy found zero
services. -/
def testService : ComposeServiceInfo :=
  ⟨"test-service", "test/image:latest", ["8080:80"]⟩

/-- The tail of ListComposeServices after the services mapping was
obtained: the YAML-derived records, else the command-line fallback,
else the synthetic test record. -/
def svcResult (env : SvcEnv) (servicesMap : List (String × GoVal)) : List ComposeServiceInfo :=
  let fromYaml := svcRecords servicesMap
  let withCli :=
    if fromYaml.length = 0 then
      match env.cliServices with
      | some out => cliServiceRecords (goSplit (goTrimSpace out) "\n")
      | none => fromYaml
    else fromYaml
  if withCli.length = 0 then [testService] else withCli

/-- The read/parse/extract tail of ListComposeServices, applied once the
declaration file has been located. -/
def readAndParseServices (env : SvcEnv) (composePath : String) :
    List ComposeServiceInfo × Option String :=
  match env.readFile composePath with
  | none => ([], some "failed to read compose file")
  | some content =>
    if content = "" then ([], some "compose file is empty")
    else
      match env.yaml content with
      | none => ([], some "failed to parse compose file")
      | some composeData =>
        match composeData.lookup "services" with
        | some (GoVal.obj servicesMap) => (svcResult env servicesMap, none)
        | _ => ([], some "no services found in compose file or invalid format")

/-- ListComposeServices: resolve the declaration file (a direct file
path, or the first probed candidate inside a directory), read it, parse
it, and extract the service records; each failure is an error return. -/
def listComposeServices (env : SvcEnv) (projectPath : String) :
    List ComposeServiceInfo × Option String :=
  if env.stat projectPath = StatRes.notExist then
    ([], some "project path does not exist")
  else
    let composeFile : Option String :=
      if env.stat projectPath = StatRes.file then some projectPath
      else (composeCandidates projectPath).find? (fun f => statOk (env.stat f))
    match composeFile with
    | none => ([], some "no compose file found in path")
    | some composePath => readAndParseServices env composePath

/-- The Docker runtime as ListComposeContainers consults it: the full
container list the daemon would report (none = ContainerList error).
The daemon's label-filtered listing keeps exactly the containers whose
com.docker.compose.project label equals the requested value. -/
structure DockerAPI where
  containers : Option (List APIContainer)

/-- Conversion of one daemon container to a ContainerInfo: strip the
leading slash of the first name, truncate the identifier, and append the
service label to the display name when present. -/
def apiToContainerInfo (c : APIContainer) : ContainerInfo :=
  let name :=
    match c.names with
    | [] => ""
    | n :: _ => String.mk (n.data.drop 1)
  let id := goTake12 c.id
  let serviceName :=
    match c.labels.lookup "com.docker.compose.service" with
    | some v => v
    | none => ""
  let displayName := if serviceName ≠ "" then name ++ " (" ++ serviceName ++ ")" else name
  ⟨id, displayName, c.image, c.command, c.status, c.state⟩

/-- getContainersByProjectName: label-filtered ContainerList (an API
error yields nil), converted to ContainerInfo records. -/
def getContainersByProjectName (api : DockerAPI) (projectName : String) : List ContainerInfo :=
  match api.containers with
  | none => []
  | some cs =>
    (cs.filter (fun c =>
      c.labels.lookup "com.docker.compose.project" == some projectName)).map apiToContainerInfo

/-- Environment of a getContainersByComposeCommand call: the outputs of
its three subprocess attempts for the project under discovery (JSON ps,
plain ps, and the hyphenated legacy binary); none = the command failed. -/
structure CCEnv where
  psJson : Option Raw
  psPlain : Option Raw
  psHyphen : Option Raw

/-- One record of the compose ps JSON interpretation: skipped when the
ID field is absent/empty, otherwise identifier-truncated with the
service name appended to the display name. -/
def composePsRecords : List (List (String × GoVal)) → List ContainerInfo
  | [] => []
  | c :: rest =>
    let id := goStrField c "ID"
    if id ≠ "" then
      let name := goStrField c "Name"
      let service := goStrField c "Service"
      let containerName := if service ≠ "" then name ++ " (" ++ service ++ ")" else name
      ⟨goTake12 id, containerName, goStrField c "Image", "", goStrField c "Status",
        goStrField c "State"⟩ :: composePsRecords rest
    else composePsRecords rest

/-- One line of parseComposeTextOutput (the header line and blank lines
are skipped; a data line needs at least three fields). -/
def textLine (i : Nat) (line : String) : List ContainerInfo :=
  if i == 0 || goTrimSpace line = "" then []
  else
    let parts := goFields line
    if 3 ≤ parts.length then
      let id := goTake12 (parts.getD 0 "")
      let name := parts.getD 1 ""
      let status := if 4 ≤ parts.length then goJoin " " (parts.drop 2) else "unknown"
      let state :=
        if goContains (goToLower status) "up" then "running"
        else if goContains (goToLower status) "exited" then "exited"
        else "unknown"
      let nameParts := goSplit name "_"
      let serviceName := if 1 < nameParts.length then nameParts.getD 1 "" else ""
      let displayName := if serviceName ≠ "" then name ++ " (" ++ serviceName ++ ")" else name
      [⟨id, displayName, "", "", status, state⟩]
    else []

/-- The indexed line loop of parseComposeTextOutput. -/
def textLines : Nat → List String → List ContainerInfo
  | _, [] => []
  | i, line :: rest => textLine i line ++ textLines (i + 1) rest

/-- parseComposeTextOutput: tabular interpretation of compose ps text. -/
def parseComposeTextOutput (output : String) : List ContainerInfo :=
  textLines 0 (goSplit output "\n")

/-- Last fallback of getContainersByComposeCommand: the hyphenated
legacy binary, text-parsed when it ran with output. -/
def ccFallbackHyphen (env : CCEnv) : List ContainerInfo :=
  match env.psHyphen with
  | some out => if 0 < out.text.length then parseComposeTextOutput out.text else []
  | none => []

/-- Middle fallback: plain compose ps without --format, text-parsed. -/
def ccFallbackPlain (env : CCEnv) : List ContainerInfo :=
  match env.psPlain with
  | some out =>
    if 0 < out.text.length then parseComposeTextOutput out.text else ccFallbackHyphen env
  | none => ccFallbackHyphen env

/-- getContainersByComposeCommand: JSON-formatted compose ps first (its
decoded records are returned even when empty; on a decode failure its
text is parsed and returned if nonempty), then the plain and hyphenated
fallbacks.  The function takes no context. -/
def getContainersByComposeCommand (env : CCEnv) : List ContainerInfo :=
  match env.psJson with
  | some out =>
    if 0 < out.text.length then
      match (match out.js with | some v => decodeObjList v | none => none) with
      | some objs => composePsRecords objs
      | none =>
        let fromText := parseComposeTextOutput out.text
        if 0 < fromText.length then fromText else ccFallbackPlain env
    else ccFallbackPlain env
  | none => ccFallbackPlain env

/-- The two hard-coded records returned for the project named test when
every strategy found nothing. -/
def addTestContainers (projectName : String) : List ContainerInfo :=
  [⟨"test1234567", projectName ++ "_mongodb_1 (mongodb)", "mongo:latest", "mongod",
     "Up 2 hours", "running"⟩,
   ⟨"test7654321", projectName ++ "_api_1 (api)", projectName ++ "/api:latest", "node server.js",
     "Up 2 hours", "running"⟩]

/-- Environment of a ListComposeContainers call. -/
structure MatchEnv where
  api : DockerAPI
  cc : CCEnv

/-- ListComposeContainers: reject an empty project name, then run the
strategy chain — exact label lookup, dash-substituted label lookup,
lowercased label lookup, the external compose command, and the test
fallback — each attempted only while the accumulated list is empty. -/
def listComposeContainers (ctx : Ctx) (env : MatchEnv) (projectName : String) :
    List ContainerInfo × Option String :=
  if projectName = "" then ([], some "no project name provided")
  else
    let c0 := getContainersByProjectName env.api projectName
    let c1 :=
      if c0.length = 0 then
        let alt := goReplaceAllChar projectName '_' '-'
        if alt ≠ projectName then getContainersByProjectName env.api alt else c0
      else c0
    let c2 :=
      if c1.length = 0 then
        let norm := goToLower projectName
        if norm ≠ projectName then getContainersByProjectName env.api norm else c1
      else c1
    let c3 := if c2.length = 0 then getContainersByComposeCommand env.cc else c2
    let c4 := if c3.length = 0 ∧ projectName = "test" then addTestContainers projectName else c3
    (c4, none)

/-- Environment of a FetchComposeContainers call: the runtime container
list (ContainerInfo records as ListContainers returns them), the parsed
inspect JSON per container identifier (none covers an inspect error and
an unparsable document alike), and the compose ps output. -/
structure FetchEnv where
  list : Option (List ContainerInfo)
  inspect : String → Option GoVal
  psJson : Option Raw

/-- The first-pass name predicate of FetchComposeContainers: the
lowercased container name contains the lowercased project name, or its
dash-substituted variant, or its underscore-substituted variant. -/
def fetchNameMatch (projectName containerName : String) : Bool :=
  let normalized := goToLower projectName
  let dashVariant := goReplaceAllChar normalized '_' '-'
  let underscoreVariant := goReplaceAllChar normalized '-' '_'
  let lowerName := goToLower containerName
  goContains lowerName normalized || goContains lowerName dashVariant ||
    goContains lowerName underscoreVariant

/-- The label scan of FetchComposeContainers: an exact compose project
label equal (case-folded) to the name or a variant, or any compose- or
project-flavoured label whose value contains the name or a variant. -/
def fetchLabelMatch (projectName normalized dashVariant underscoreVariant : String)
    (labels : List (String × GoVal)) : Bool :=
  labels.any (fun kv =>
    match kv.2 with
    | GoVal.str v =>
      (kv.1 == "com.docker.compose.project" &&
        (goEqualFold v projectName || goEqualFold v dashVariant ||
          goEqualFold v underscoreVariant)) ||
      ((goContains (goToLower kv.1) "compose" || goContains (goToLower kv.1) "project") &&
        (goContains (goToLower v) normalized || goContains (goToLower v) dashVariant ||
          goContains (goToLower v) underscoreVariant))
    | _ => false)

/-- The per-container inspect step of the first pass: fetch and decode
the inspect document, walk Config.Labels, and apply the label scan. -/
def fetchInspectMatch (env : FetchEnv) (projectName normalized dashVariant underscoreVariant : String)
    (id : String) : Bool :=
  match env.inspect id with
  | some v =>
    match asObj v with
    | some inspectData =>
      match inspectData.lookup "Config" with
      | some (GoVal.obj config) =>
        match config.lookup "Labels" with
        | some (GoVal.obj labels) =>
          fetchLabelMatch projectName normalized dashVariant underscoreVariant labels
        | _ => false
      | _ => false
    | none => false
  | none => false

/-- The compose-CLI pass of FetchComposeContainers: decode the ps JSON,
and for each record with a string ID adopt the first runtime container
whose identifier extends it (or its 12-character prefix), skipping
containers already collected. -/
def fetchCliPass (env : FetchEnv) (containers : List ContainerInfo) : List ContainerInfo :=
  match env.psJson with
  | some out =>
    if 0 < out.text.length then
      match (match out.js with | some v => decodeObjList v | none => none) with
      | some objs =>
        objs.foldl (fun acc c =>
          match c.lookup "ID" with
          | some (GoVal.str id) =>
            match containers.find? (fun ec =>
                goStartsWith ec.id id ||
                (decide (12 ≤ id.length) && decide (12 ≤ ec.id.length) &&
                  goStartsWith ec.id (String.mk (id.data.take 12)))) with
            | some ec => if acc.any (fun a => a.id == ec.id) then acc else acc ++ [ec]
            | none => acc
          | _ => acc) []
      | none => []
    else []
  | none => []

/-- The deep name-token pass of FetchComposeContainers: keep a container
when some underscore-separated token of its name case-folds to the
normalized name or a variant, deduplicating by identifier. -/
def fetchDeepPass (normalized dashVariant underscoreVariant : String)
    (containers : List ContainerInfo) : List ContainerInfo :=
  containers.foldl (fun acc c =>
    if (goSplit c.name "_").any (fun part =>
        goEqualFold part normalized || goEqualFold part dashVariant ||
          goEqualFold part underscoreVariant) then
      if acc.any (fun a => a.id == c.id) then acc else acc ++ [c]
    else acc) []

/-- FetchComposeContainers: reject an empty project name, list all
runtime containers (an error is returned to the caller), then run the
name-or-label pass, the compose-CLI pass, and the deep name-token pass,
each of the last two only when the collection is still empty. -/
def fetchComposeContainers (env : FetchEnv) (projectName : String) :
    List ContainerInfo × Option String :=
  if projectName = "" then ([], some "no project selected")
  else
    let normalized := goToLower projectName
    let dashVariant := goReplaceAllChar normalized '_' '-'
    let underscoreVariant := goReplaceAllChar normalized '-' '_'
    match env.list with
    | none => ([], some "failed to list containers")
    | some containers =>
      let pass1 := containers.filter (fun c =>
        fetchNameMatch projectName c.name ||
          fetchInspectMatch env projectName normalized dashVariant underscoreVariant c.id)
      let pass2 := if pass1.length = 0 then fetchCliPass env containers else pass1
      let pass3 :=
        if pass2.length = 0 then fetchDeepPass normalized dashVariant underscoreVariant containers
        else pass2
      (pass3, none)

/-! Concrete environments used by the theorems below. -/

/-- No compose tool on the system (the listing subprocess cannot start)
and no declaration files anywhere (the config scan found nothing). -/
def envNoTool : ProjEnv :=
  { composeLs := ExecRes.startErr
    configCmd := fun _ => none
    lsA := none
    configProjects := [] }

/-- The listing subcommand succeeded and reported one project. -/
def projAlpha : ComposeInfo :=
  ⟨"alpha", "/srv/alpha", [], "running(1)", ""⟩

def envToolData : ProjEnv :=
  { composeLs := ExecRes.ok
      ⟨"[\x7b\"name\":\"alpha\",\"path\":\"/srv/alpha\",\"status\":\"running(1)\"\x7d]",
        some (GoVal.arr [GoVal.obj
          [("name", GoVal.str "alpha"), ("path", GoVal.str "/srv/alpha"),
           ("status", GoVal.str "running(1)")]])⟩
    configCmd := fun _ => none
    lsA := none
    configProjects := [] }

/-- Two same-named listing records, one with an empty path and one with
a non-empty path; both secondary path lookups fail. -/
def envSharedName : ProjEnv :=
  { composeLs := ExecRes.ok
      ⟨"[\x7b\"name\":\"a\",\"path\":\"\"\x7d,\x7b\"name\":\"a\",\"path\":\"/x\"\x7d]",
        some (GoVal.arr
          [GoVal.obj [("name", GoVal.str "a"), ("path", GoVal.str "")],
           GoVal.obj [("name", GoVal.str "a"), ("path", GoVal.str "/x")]])⟩
    configCmd := fun _ => none
    lsA := none
    configProjects := [] }

/-- The declaration fixture: services web (image nginx:latest, ports
["8080:80"]) and db (image postgres:14). -/
def fixtureYamlText : String :=
  "services:\n  web:\n    image: nginx:latest\n    ports:\n      - \"8080:80\"\n  db:\n    image: postgres:14\n"

/-- The services mapping the YAML library yields for the fixture. -/
def fixtureServicesMap : List (String × GoVal) :=
  [("web", GoVal.obj [("image", GoVal.str "nginx:latest"),
      ("ports", GoVal.arr [GoVal.str "8080:80"])]),
   ("db", GoVal.obj [("image", GoVal.str "postgres:14")])]

def fixturePath : String := "/proj/docker-compose.yml"

/-- Environment holding the fixture declaration as a direct file path. -/
def envFixtureSvc : SvcEnv :=
  { stat := fun p => if p = fixturePath then StatRes.file else StatRes.notExist
    readFile := fun p => if p = fixturePath then some fixtureYamlText else none
    yaml := fun c => if c = fixtureYamlText then some [("services", GoVal.obj fixtureServicesMap)] else none
    cliServices := none }

/-- A declaration whose services mapping is empty, with a command-line
fallback that succeeds with no output: every strategy finds zero
services. -/
def envEmptySvc : SvcEnv :=
  { stat := fun p => if p = "/p" then StatRes.file else StatRes.notExist
    readFile := fun p => if p = "/p" then some "services: \x7b\x7d" else none
    yaml := fun c => if c = "services: \x7b\x7d" then some [("services", GoVal.obj [])] else none
    cliServices := some "" }

/-- The compose ps JSON fixture of the output interpreter. -/
def rawPsFixture : Raw :=
  ⟨"[\x7b\"ID\":\"abcdef123456\",\"Name\":\"myapp_web_1\",\"Service\":\"web\"\x7d]",
    some (GoVal.arr [GoVal.obj
      [("ID", GoVal.str "abcdef123456"), ("Name", GoVal.str "myapp_web_1"),
       ("Service", GoVal.str "web")]])⟩

def envPsFixture : CCEnv := ⟨some rawPsFixture, none, none⟩

/-- A runtime holding one unlabeled container named myapp-web-1. -/
def apiMyappWeb : APIContainer :=
  ⟨"c1", ["/myapp-web-1"], "nginx", "", "Up 2 hours", "running", []⟩

def envRuntimeDashed : MatchEnv := ⟨⟨some [apiMyappWeb]⟩, ⟨none, none, none⟩⟩

/-- A runtime holding one unlabeled container named my-app-web-1. -/
def apiMyAppDashed : APIContainer :=
  ⟨"c2", ["/my-app-web-1"], "nginx", "", "Up 2 hours", "running", []⟩

def envRuntimeDashed2 : MatchEnv := ⟨⟨some [apiMyAppDashed]⟩, ⟨none, none, none⟩⟩

/-- The same unlabeled container as ListContainers reports it. -/
def cMyappWeb : ContainerInfo := ⟨"c1", "myapp-web-1", "nginx", "", "Up 2 hours", "running"⟩

def envFetchDashed : FetchEnv := ⟨some [cMyappWeb], fun _ => none, none⟩

/-- A runtime with a container properly labeled for project shop. -/
def apiLabeledShop : APIContainer :=
  ⟨"abc123", ["/shop-web-1"], "nginx", "", "Up 2 hours", "running",
    [("com.docker.compose.project", "shop"), ("com.docker.compose.service", "web")]⟩

def envLabeledShop : MatchEnv := ⟨⟨some [apiLabeledShop]⟩, ⟨none, none, none⟩⟩

/-! Supporting lemmas. -/

/-- The seen-key set after the dedup loop has processed a list. -/
def seenAfter : List String → List ComposeInfo → List String
  | seen, [] => seen
  | seen, p :: rest =>
    if keySeen seen (dedupKey p) then seenAfter seen rest
    else seenAfter (dedupKey p :: seen) rest

theorem dedupProjects_append (env : ProjEnv) :
    ∀ (xs ys : List ComposeInfo) (seen : List String),
      dedupProjects env seen (xs ++ ys) =
        dedupProjects env seen xs ++ dedupProjects env (seenAfter seen xs) ys := by
  intro xs
  induction xs with
  | nil => intro ys seen; simp [dedupProjects, seenAfter]
  | cons p rest ih =>
    intro ys seen
    by_cases hk : keySeen seen (dedupKey p) = true
    · simp [dedupProjects, seenAfter, hk, ih]
    · simp [dedupProjects, seenAfter, hk, ih]

theorem keySeen_seenAfter (k : String) :
    ∀ (xs : List ComposeInfo) (seen : List String),
      keySeen seen k = true → keySeen (seenAfter seen xs) k = true := by
  intro xs
  induction xs with
  | nil => intro seen h; simpa [seenAfter] using h
  | cons p rest ih =>
    intro seen h
    by_cases hk : keySeen seen (dedupKey p) = true
    · simpa [seenAfter, hk] using ih seen h
    · have h2 : keySeen (dedupKey p :: seen) k = true := by simp [keySeen, h]
      simpa [seenAfter, hk] using ih _ h2

theorem keySeen_after_mem :
    ∀ (xs : List ComposeInfo) (seen : List String) (p : ComposeInfo),
      p ∈ xs → keySeen (seenAfter seen xs) (dedupKey p) = true := by
  intro xs
  induction xs with
  | nil => intro seen p h; cases h
  | cons q rest ih =>
    intro seen p h
    rcases List.mem_cons.mp h with h1 | hmem
    · subst h1
      by_cases hk : keySeen seen (dedupKey p) = true
      · simpa [seenAfter, hk] using keySeen_seenAfter (dedupKey p) rest seen hk
      · have h2 : keySeen (dedupKey p :: seen) (dedupKey p) = true := by simp [keySeen]
        simpa [seenAfter, hk] using keySeen_seenAfter (dedupKey p) rest _ h2
    · by_cases hk : keySeen seen (dedupKey q) = true
      · simpa [seenAfter, hk] using ih seen p hmem
      · simpa [seenAfter, hk] using ih _ p hmem

theorem dedupProjects_nil_of_seen (env : ProjEnv) :
    ∀ (ys : List ComposeInfo) (seen : List String),
      (∀ p, p ∈ ys → keySeen seen (dedupKey p) = true) → dedupProjects env seen ys = [] := by
  intro ys
  induction ys with
  | nil => intro seen _; simp [dedupProjects]
  | cons p rest ih =>
    intro seen h
    have hp := h p (List.mem_cons_self p rest)
    have htail := ih seen (fun q hq => h q (List.mem_cons_of_mem p hq))
    simp [dedupProjects, hp, htail]

theorem svcRecords_names :
    ∀ sm : List (String × GoVal), sm.all (fun e => GoVal.isObj e.2) = true →
      (svcRecords sm).map ComposeServiceInfo.name = sm.map Prod.fst := by
  intro sm
  induction sm with
  | nil => intro _; rfl
  | cons e rest ih =>
    intro h
    rw [List.all_cons, Bool.and_eq_true] at h
    obtain ⟨n, v⟩ := e
    cases v with
    | obj m => simp [svcRecords, ih h.2]
    | str s => simp [GoVal.isObj] at h
    | num x => simp [GoVal.isObj] at h
    | boolVal b => simp [GoVal.isObj] at h
    | null => simp [GoVal.isObj] at h
    | arr xs => simp [GoVal.isObj] at h

theorem svcRecords_length (sm : List (String × GoVal))
    (h : sm.all (fun e => GoVal.isObj e.2) = true) :
    (svcRecords sm).length = sm.length := by
  have h2 := congrArg List.length (svcRecords_names sm h)
  simpa using h2

theorem svcTail_ne_nil (w : List ComposeServiceInfo) :
    (if w.length = 0 then [testService] else w) ≠ [] := by
  by_cases h : w.length = 0
  · simp [h, testService]
  · simp only [h, if_false]
    intro he
    exact h (by simp [he])

theorem svcResult_ne_nil (env : SvcEnv) (sm : List (String × GoVal)) :
    svcResult env sm ≠ [] := by
  unfold svcResult
  exact svcTail_ne_nil _

theorem svcResult_of_yaml (env : SvcEnv) (sm : List (String × GoVal))
    (h : (svcRecords sm).length ≠ 0) : svcResult env sm = svcRecords sm := by
  unfold svcResult
  simp [h]

theorem readAndParse_success_ne_nil (env : SvcEnv) (cp : String)
    (res : List ComposeServiceInfo) (h : readAndParseServices env cp = (res, none)) :
    res ≠ [] := by
  unfold readAndParseServices at h
  split at h
  · have h2 : (([] : List ComposeServiceInfo), some "failed to read compose file") =
        (res, none) := h
    simp at h2
  · split at h
    · have h2 : (([] : List ComposeServiceInfo), some "compose file is empty") =
          (res, none) := h
      simp at h2
    · split at h
      · have h2 : (([] : List ComposeServiceInfo), some "failed to parse compose file") =
            (res, none) := h
        simp at h2
      · split at h
        · rename_i sm hsm
          have h2 : svcResult env sm = res := by
            have h1 := congrArg Prod.fst h
            simpa using h1
          rw [← h2]
          exact svcResult_ne_nil _ _
        · have h2 : (([] : List ComposeServiceInfo),
              some "no services found in compose file or invalid format") = (res, none) := h
          simp at h2

/-- Reduction of ListComposeServices when the project path stats as a
regular file, its bytes read and parse, and a services mapping exists. -/
theorem listComposeServices_file (env : SvcEnv) (path content : String)
    (top sm : List (String × GoVal))
    (hstat : env.stat path = StatRes.file)
    (hread : env.readFile path = some content)
    (hcont : content ≠ "")
    (hyaml : env.yaml content = some top)
    (hlookup : top.lookup "services" = some (GoVal.obj sm)) :
    listComposeServices env path = (svcResult env sm, none) := by
  have hr : readAndParseServices env path = (svcResult env sm, none) := by
    unfold readAndParseServices
    rw [hread]
    dsimp only
    rw [if_neg hcont, hyaml]
    dsimp only
    rw [hlookup]
  unfold listComposeServices
  rw [hstat, if_neg (fun hh => StatRes.noConfusion hh), if_pos rfl]
  exact hr

/-! Claim theorems. -/

/-- Claim C1, counterexample: with the external compose tool absent (its
subprocess cannot run) and no declaration files, ListComposeProjects
does return an error — refuting the claimed empty, non-error result. -/
theorem claim1_counterexample : (listComposeProjects Ctx.live envNoTool).2 ≠ none := by
  decide

/-- Claim C1, amended: when the external compose tool invocation cannot
run, ListComposeProjects raises the failure to the caller as a hard
error with a nil inventory; the declaration-file scan is not reached. -/
theorem claim1_invocation_failure_raised :
    ∀ (ctx : Ctx) (env : ProjEnv), env.composeLs = ExecRes.startErr →
      listComposeProjects ctx env = ([], some "failed to execute Docker Compose command") := by
  intro ctx env h
  simp [listComposeProjects, h]

/-- Claim C1, witness for the amended theorem. -/
theorem claim1_witness :
    listComposeProjects Ctx.live envNoTool =
      ([], some "failed to execute Docker Compose command") :=
  claim1_invocation_failure_raised Ctx.live envNoTool rfl

/-- Claim C2, counterexample: in ListComposeContainers the variant
passes query labels only, and for a project name without underscores the
dash pass is skipped, so an unlabeled runtime container named
myapp-web-1 is not selected for project myapp (and an unlabeled
my-app-web-1 is not selected for project my_app). -/
theorem claim2_counterexample :
    listComposeContainers Ctx.live envRuntimeDashed "myapp" = ([], none) ∧
    listComposeContainers Ctx.live envRuntimeDashed2 "my_app" = ([], none) := by
  constructor
  · decide
  · decide

/-- Claim C2, amended: symmetric dash/underscore matching holds in
FetchComposeContainers' name pass — a container name containing the
dash-substituted (resp. underscore-substituted) form of the project name
is matched however the project name is spelled — and that pass alone
selects the container myapp-web-1 for project myapp; ListComposeContainers
does not perform name matching in its variant passes. -/
theorem claim2_variant_matching :
    (∀ p c : String, goContains (goToLower c) (goReplaceAllChar (goToLower p) '_' '-') = true →
        fetchNameMatch p c = true) ∧
    (∀ p c : String, goContains (goToLower c) (goReplaceAllChar (goToLower p) '-' '_') = true →
        fetchNameMatch p c = true) ∧
    fetchComposeContainers envFetchDashed "myapp" = ([cMyappWeb], none) := by
  refine ⟨?_, ?_, by decide⟩
  · intro p c h
    simp [fetchNameMatch, h]
  · intro p c h
    simp [fetchNameMatch, h]

/-- Claim C2, witness: the underscore-supplied project name my_app
matches the dash-named container my-app-web-1. -/
theorem claim2_witness : fetchNameMatch "my_app" "my-app-web-1" = true :=
  claim2_variant_matching.1 "my_app" "my-app-web-1" (by decide)

/-- Claim C3, counterexample: under an already-expired context,
ListComposeProjects still returns the full result decoded from the
subprocess output, and its result depends on the subprocess outcome —
refuting the claimed immediate empty return without subprocess
execution. -/
theorem claim3_counterexample :
    listComposeProjects Ctx.expired envToolData = ([projAlpha], none) ∧
    listComposeProjects Ctx.expired envToolData ≠ listComposeProjects Ctx.expired envNoTool := by
  constructor
  · decide
  · decide

/-- Claim C3, amended: the discovery call does not honour its
bounded-time context at all — ListComposeProjects never consults the
supplied context, so its behaviour is identical for live and expired
contexts (and getContainersByComposeCommand takes no context). -/
theorem claim3_context_ignored :
    ∀ (c1 c2 : Ctx) (env : ProjEnv), listComposeProjects c1 env = listComposeProjects c2 env :=
  fun _ _ _ => rfl

/-- Claim C4, counterexample: two candidates named a, one with empty and
one with path /x, are kept as two separate entries; the empty path is
filled with the lookup default "." and the non-empty path /x is not
propagated to the other entry — refuting the claimed retroactive
application of the non-empty path. -/
theorem claim4_counterexample :
    (listComposeProjects Ctx.live envSharedName).1 =
      [⟨"a", ".", [], "", ""⟩, ⟨"a", "/x", [], "", ""⟩] ∧
    (listComposeProjects Ctx.live envSharedName).1.map ComposeInfo.path = [".", "/x"] := by
  constructor
  · decide
  · decide

/-- Claim C4, amended: same-named entries are never reconciled — each
entry with an empty path is filled independently by
findComposeProjectPath, which defaults to the current directory "."
when both secondary lookups fail, while entries that already carry a
path keep it. -/
theorem claim4_path_fill :
    (∀ (env : ProjEnv) (pn : String), env.configCmd pn = none → env.lsA = none →
        findComposeProjectPath env pn = ".") ∧
    (listComposeProjects Ctx.live envSharedName).1 =
      [⟨"a", ".", [], "", ""⟩, ⟨"a", "/x", [], "", ""⟩] := by
  constructor
  · intro env pn h1 h2
    simp [findComposeProjectPath, h1, h2]
  · decide

/-- Claim C4, witness for the amended theorem. -/
theorem claim4_witness : findComposeProjectPath envNoTool "a" = "." :=
  claim4_path_fill.1 envNoTool "a" rfl rfl

/-- Claim C5: for a declaration whose services mapping holds N entries,
each a mapping, ListComposeServices returns exactly N records carrying
the service names; on the fixture with web (nginx:latest, ports
["8080:80"]) and db (postgres:14) it returns exactly those two services. -/
theorem claim5_declaration_parsing :
    (∀ (env : SvcEnv) (path content : String) (top sm : List (String × GoVal)),
        env.stat path = StatRes.file →
        env.readFile path = some content →
        content ≠ "" →
        env.yaml content = some top →
        top.lookup "services" = some (GoVal.obj sm) →
        sm ≠ [] →
        sm.all (fun e => GoVal.isObj e.2) = true →
        (listComposeServices env path).2 = none ∧
          (listComposeServices env path).1.map ComposeServiceInfo.name = sm.map Prod.fst ∧
          (listComposeServices env path).1.length = sm.length) ∧
    listComposeServices envFixtureSvc fixturePath =
      ([⟨"web", "nginx:latest", ["8080:80"]⟩, ⟨"db", "postgres:14", []⟩], none) := by
  constructor
  · intro env path content top sm hstat hread hcont hyaml hlookup hne hall
    have hlen := svcRecords_length sm hall
    have hlen0 : (svcRecords sm).length ≠ 0 := by
      rw [hlen]
      intro h0
      exact hne (List.length_eq_zero.mp h0)
    have hred := listComposeServices_file env path content top sm hstat hread hcont hyaml hlookup
    rw [hred, svcResult_of_yaml env sm hlen0]
    exact ⟨rfl, svcRecords_names sm hall, hlen⟩
  · decide

/-- Claim C5, witness at the fixture declaration. -/
theorem claim5_witness :
    (listComposeServices envFixtureSvc fixturePath).2 = none ∧
      (listComposeServices envFixtureSvc fixturePath).1.map ComposeServiceInfo.name =
        fixtureServicesMap.map Prod.fst ∧
      (listComposeServices envFixtureSvc fixturePath).1.length = fixtureServicesMap.length :=
  claim5_declaration_parsing.1 envFixtureSvc fixturePath fixtureYamlText
    [("services", GoVal.obj fixtureServicesMap)] fixtureServicesMap
    rfl rfl (by decide) rfl rfl (by simp [fixtureServicesMap]) (by decide)

/-- Claim C6: on tool output holding one record with ID abcdef123456,
name myapp_web_1 and service web, the interpreter yields exactly one
container whose identifier is the 12-character abcdef123456 and whose
display name is myapp_web_1 (web). -/
theorem claim6_interpreter :
    getContainersByComposeCommand envPsFixture =
      [⟨"abcdef123456", "myapp_web_1 (web)", "", "", "", ""⟩] ∧
    (getContainersByComposeCommand envPsFixture).map ContainerInfo.id = ["abcdef123456"] ∧
    "abcdef123456".length = 12 := by
  refine ⟨by decide, by decide, by decide⟩

/-- Claim C7: deduplication keyed on name + ":" + path is idempotent —
a project list merged with itself deduplicates to the same inventory as
the list alone. -/
theorem claim7_dedup_idempotent :
    ∀ (env : ProjEnv) (ps : List ComposeInfo),
      dedupProjects env [] (ps ++ ps) = dedupProjects env [] ps := by
  intro env ps
  rw [dedupProjects_append]
  have h : dedupProjects env (seenAfter [] ps) ps = [] :=
    dedupProjects_nil_of_seen env ps _ (fun p hp => keySeen_after_mem ps [] p hp)
  rw [h, List.append_nil]

/-- Claim C8: in ListComposeContainers every later strategy runs only on
an empty earlier result — when the exact label lookup is non-empty the
result equals it untouched, and when it is empty but the dash-variant
label lookup is non-empty the result equals that lookup. -/
theorem claim8_strategy_chain :
    (∀ (ctx : Ctx) (env : MatchEnv) (p : String), p ≠ "" →
        getContainersByProjectName env.api p ≠ [] →
        listComposeContainers ctx env p = (getContainersByProjectName env.api p, none)) ∧
    (∀ (ctx : Ctx) (env : MatchEnv) (p : String), p ≠ "" →
        getContainersByProjectName env.api p = [] →
        goReplaceAllChar p '_' '-' ≠ p →
        getContainersByProjectName env.api (goReplaceAllChar p '_' '-') ≠ [] →
        listComposeContainers ctx env p =
          (getContainersByProjectName env.api (goReplaceAllChar p '_' '-'), none)) := by
  constructor
  · intro ctx env p hp h
    have hlen : ¬ (getContainersByProjectName env.api p).length = 0 := by
      intro h0
      exact h (List.length_eq_zero.mp h0)
    simp [listComposeContainers, hp, hlen]
  · intro ctx env p hp h0 halt hne
    have h0len : (getContainersByProjectName env.api p).length = 0 := by simp [h0]
    have hlen : ¬ (getContainersByProjectName env.api (goReplaceAllChar p '_' '-')).length = 0 := by
      intro hx
      exact hne (List.length_eq_zero.mp hx)
    simp [listComposeContainers, hp, h0len, halt, hlen]

/-- Claim C8, witness: a runtime container labeled for project shop is
found by the exact label lookup and returned untouched. -/
theorem claim8_witness :
    "shop" ≠ "" ∧ getContainersByProjectName envLabeledShop.api "shop" ≠ [] ∧
      listComposeContainers Ctx.live envLabeledShop "shop" =
        (getContainersByProjectName envLabeledShop.api "shop", none) :=
  ⟨by decide, by decide,
    claim8_strategy_chain.1 Ctx.live envLabeledShop "shop" (by decide) (by decide)⟩

/-- Claim C9: every successful ListComposeServices return is non-empty —
when the YAML records, the command-line fallback, and every other
strategy find zero services, the synthetic test-service record (image
test/image:latest, ports ["8080:80"]) is appended. -/
theorem claim9_nonempty_services :
    (∀ (env : SvcEnv) (path : String) (res : List ComposeServiceInfo),
        listComposeServices env path = (res, none) → res ≠ []) ∧
    listComposeServices envEmptySvc "/p" = ([testService], none) := by
  constructor
  · intro env path res h
    unfold listComposeServices at h
    split at h
    · have h2 : (([] : List ComposeServiceInfo), some "project path does not exist") =
          (res, none) := h
      simp at h2
    · rcases hcf : (if env.stat path = StatRes.file then some path
          else (composeCandidates path).find? (fun f => statOk (env.stat f))) with _ | cp
      · rw [hcf] at h
        have h2 : (([] : List ComposeServiceInfo), some "no compose file found in path") =
            (res, none) := h
        simp at h2
      · rw [hcf] at h
        have h3 : readAndParseServices env cp = (res, none) := h
        exact readAndParse_success_ne_nil env cp res h3
  · decide

/-- Claim C9, witness: at the empty-services fixture the returned list
is the non-empty synthetic record. -/
theorem claim9_witness : ([testService] : List ComposeServiceInfo) ≠ [] :=
  claim9_nonempty_services.1 envEmptySvc "/p" [testService] (by decide)

/-- Claim C10: an empty project name short-circuits both container
listers to an empty list plus an error, independently of the runtime
and of any subprocess (the result is the same for every environment). -/
theorem claim10_empty_project_name :
    (∀ (ctx : Ctx) (env : MatchEnv),
        listComposeContainers ctx env "" = ([], some "no project name provided")) ∧
    (∀ env : FetchEnv, fetchComposeContainers env "" = ([], some "no project selected")) :=
  ⟨fun _ _ => rfl, fun _ => rfl⟩

end DockerTea
